import Mathlib

/-!
Verification of the element-wise transform engine in
`src/cpp/src_prims/linalg/eltwise.cuh` (namespace `MLCommon::LinAlg`).

A device buffer is modelled as the contents of memory at every element
index, `ℕ → α`.  The generic primitives `unaryOp` (MapPrimitive) and
`binaryOp` (ZipPrimitive) live in `unary_op.cuh` / `binary_op.cuh`,
which are not part of the excerpt; they are modelled from the spec
(sections 4.1 and 4.2): upon stream completion `out[i] = f(...)` for
every `i` in `[0, len)` and every other index of the output buffer is
left untouched.  The seven cataloged operations are translated directly
from the source's device lambdas.
-/

namespace MLCommon

namespace LinAlg

/-- The contents of a device buffer of elements of type `α`: the value held
at each element index. -/
def Buffer (α : Type) : Type := ℕ → α

/-- Modelled from the spec: the MapPrimitive `unaryOp` of `unary_op.cuh`,
which is not part of the excerpt.  Per section 4.1, it schedules exactly
`len` independent applications of `f` so that upon stream completion
`out[i] = f(in[i])` for every `i` in `[0, len)`, and it does not write any
memory outside those indices; `out` is the buffer's previous contents. -/
def unaryOp {α : Type} (out inp : Buffer α) (len : ℕ) (f : α → α) : Buffer α :=
  fun i => if i < len then f (inp i) else out i

/-- Modelled from the spec: the ZipPrimitive `binaryOp` of `binary_op.cuh`,
which is not part of the excerpt.  Per section 4.2, upon stream completion
`out[i] = f(in1[i], in2[i])` for every `i` in `[0, len)`; every other index
of the output buffer is left untouched.  Each index's reads of its inputs
logically precede its own write, so aliased calls read the old contents. -/
def binaryOp {α : Type} (out in1 in2 : Buffer α) (len : ℕ) (f : α → α → α) :
    Buffer α :=
  fun i => if i < len then f (in1 i) (in2 i) else out i

/-- `scalarAdd(out, in, scalar, len, stream)`: `unaryOp` with the device
lambda `in + scalar`. -/
def scalarAdd {α : Type} [Add α] (out inp : Buffer α) (scalar : α) (len : ℕ) :
    Buffer α :=
  unaryOp out inp len (fun x => x + scalar)

/-- `scalarMultiply(out, in, scalar, len, stream)`: `unaryOp` with the device
lambda `in * scalar`. -/
def scalarMultiply {α : Type} [Mul α] (out inp : Buffer α) (scalar : α)
    (len : ℕ) : Buffer α :=
  unaryOp out inp len (fun x => x * scalar)

/-- `eltwiseAdd(out, in1, in2, len, stream)`: `binaryOp` with the device
lambda `a + b`. -/
def eltwiseAdd {α : Type} [Add α] (out in1 in2 : Buffer α) (len : ℕ) :
    Buffer α :=
  binaryOp out in1 in2 len (fun a b => a + b)

/-- `eltwiseSub(out, in1, in2, len, stream)`: `binaryOp` with the device
lambda `a - b`. -/
def eltwiseSub {α : Type} [Sub α] (out in1 in2 : Buffer α) (len : ℕ) :
    Buffer α :=
  binaryOp out in1 in2 len (fun a b => a - b)

/-- `eltwiseMultiply(out, in1, in2, len, stream)`: `binaryOp` with the device
lambda `a * b`. -/
def eltwiseMultiply {α : Type} [Mul α] (out in1 in2 : Buffer α) (len : ℕ) :
    Buffer α :=
  binaryOp out in1 in2 len (fun a b => a * b)

/-- `eltwiseDivide(out, in1, in2, len, stream)`: `binaryOp` with the device
lambda `a / b` (the element type's native division, no guard). -/
def eltwiseDivide {α : Type} [Div α] (out in1 in2 : Buffer α) (len : ℕ) :
    Buffer α :=
  binaryOp out in1 in2 len (fun a b => a / b)

/-- `eltwiseDivideCheckZero(out, in1, in2, len, stream)`: `binaryOp` with the
device lambda `b == 0 ? 0 : a / b`. -/
def eltwiseDivideCheckZero {α : Type} [Div α] [Zero α] [DecidableEq α]
    (out in1 in2 : Buffer α) (len : ℕ) : Buffer α :=
  binaryOp out in1 in2 len (fun a b => if b = 0 then 0 else a / b)

/-- Concrete rational buffer holding zeros, used as a pristine output. -/
def qZeros : Buffer ℚ := fun _ => 0

/-- Concrete rational buffer `[1, 2, 3, 4]` of the spec's scenario. -/
def qIn1 : Buffer ℚ := fun i => [1, 2, 3, 4].getD i 0

/-- Concrete rational buffer `[0, 1, 2, 0]` of the spec's scenario. -/
def qIn2 : Buffer ℚ := fun i => [0, 1, 2, 0].getD i 0

/-- Claim C1: for every pair of input buffers of length `len` and every
cataloged binary operation (`eltwiseAdd`, `eltwiseSub`, `eltwiseMultiply`,
`eltwiseDivide`, `eltwiseDivideCheckZero`), after stream completion `out[i]`
equals the operation's per-element function applied to `in1[i]` and `in2[i]`,
for every index `i` in `[0, len)`. -/
theorem binary_catalog_pointwise {α : Type} [Add α] [Sub α] [Mul α] [Div α]
    [Zero α] [DecidableEq α] (out in1 in2 : Buffer α) (len i : ℕ)
    (hi : i < len) :
    eltwiseAdd out in1 in2 len i = in1 i + in2 i ∧
    eltwiseSub out in1 in2 len i = in1 i - in2 i ∧
    eltwiseMultiply out in1 in2 len i = in1 i * in2 i ∧
    eltwiseDivide out in1 in2 len i = in1 i / in2 i ∧
    eltwiseDivideCheckZero out in1 in2 len i =
      (if in2 i = 0 then 0 else in1 i / in2 i) := by
  refine ⟨?_, ?_, ?_, ?_, ?_⟩ <;>
    simp [eltwiseAdd, eltwiseSub, eltwiseMultiply, eltwiseDivide,
      eltwiseDivideCheckZero, binaryOp, hi]

/-- Witness for C1: the five cataloged binary operations evaluated on the
concrete rational buffers at index 2 of a length-4 call. -/
theorem binary_catalog_pointwise_witness :
    eltwiseAdd qZeros qIn1 qIn2 4 2 = qIn1 2 + qIn2 2 ∧
    eltwiseSub qZeros qIn1 qIn2 4 2 = qIn1 2 - qIn2 2 ∧
    eltwiseMultiply qZeros qIn1 qIn2 4 2 = qIn1 2 * qIn2 2 ∧
    eltwiseDivide qZeros qIn1 qIn2 4 2 = qIn1 2 / qIn2 2 ∧
    eltwiseDivideCheckZero qZeros qIn1 qIn2 4 2 =
      (if qIn2 2 = 0 then 0 else qIn1 2 / qIn2 2) :=
  binary_catalog_pointwise qZeros qIn1 qIn2 4 2 (by decide)

/-- Claim C2: `eltwiseDivideCheckZero` yields `0` at every index whose divisor
element is `0`, and at every other index agrees with native division and with
`eltwiseDivide`; on `in1 = [1,2,3,4]`, `in2 = [0,1,2,0]`, `len = 4` it yields
`[0, 2, 3/2, 0]`. -/
theorem divideCheckZero_guard {α : Type} [Div α] [Zero α] [DecidableEq α]
    (out in1 in2 : Buffer α) (len i : ℕ) (hi : i < len) :
    (in2 i = 0 → eltwiseDivideCheckZero out in1 in2 len i = 0) ∧
    (in2 i ≠ 0 → eltwiseDivideCheckZero out in1 in2 len i = in1 i / in2 i ∧
      eltwiseDivideCheckZero out in1 in2 len i =
        eltwiseDivide out in1 in2 len i) ∧
    (∀ j : Fin 4, eltwiseDivideCheckZero qZeros qIn1 qIn2 4 j.val =
      [0, 2, 3 / 2, 0].getD j.val 0) := by
  refine ⟨?_, ?_, ?_⟩
  · intro h
    simp [eltwiseDivideCheckZero, binaryOp, hi, h]
  · intro h
    constructor <;>
      simp [eltwiseDivideCheckZero, eltwiseDivide, binaryOp, hi, h]
  · intro j
    fin_cases j <;>
      norm_num [eltwiseDivideCheckZero, binaryOp, qZeros, qIn1, qIn2]

/-- Witness for C2: the guard behaviour at index 0 of the concrete scenario,
where the divisor element is `0`. -/
theorem divideCheckZero_guard_witness :
    (qIn2 0 = 0 → eltwiseDivideCheckZero qZeros qIn1 qIn2 4 0 = 0) ∧
    (qIn2 0 ≠ 0 → eltwiseDivideCheckZero qZeros qIn1 qIn2 4 0 =
        qIn1 0 / qIn2 0 ∧
      eltwiseDivideCheckZero qZeros qIn1 qIn2 4 0 =
        eltwiseDivide qZeros qIn1 qIn2 4 0) ∧
    (∀ j : Fin 4, eltwiseDivideCheckZero qZeros qIn1 qIn2 4 j.val =
      [0, 2, 3 / 2, 0].getD j.val 0) :=
  divideCheckZero_guard qZeros qIn1 qIn2 4 0 (by decide)

/-- Claim C3: `scalarAdd` yields `out[i] = in[i] + s` and `scalarMultiply`
yields `out[i] = in[i] * s` for every index `i` in `[0, len)`. -/
theorem scalar_ops_pointwise {α : Type} [Add α] [Mul α] (out inp : Buffer α)
    (s : α) (len i : ℕ) (hi : i < len) :
    scalarAdd out inp s len i = inp i + s ∧
    scalarMultiply out inp s len i = inp i * s := by
  constructor <;> simp [scalarAdd, scalarMultiply, unaryOp, hi]

/-- Witness for C3: the two scalar operations with scalar `5` evaluated at
index 1 of a length-4 call on a concrete rational buffer. -/
theorem scalar_ops_pointwise_witness :
    scalarAdd qZeros qIn1 5 4 1 = qIn1 1 + 5 ∧
    scalarMultiply qZeros qIn1 5 4 1 = qIn1 1 * 5 :=
  scalar_ops_pointwise qZeros qIn1 5 4 1 (by decide)

/-- Claim C4: `eltwiseDivide` applies the element type's native division
`a / b` at every index of `[0, len)` with no special-casing; in particular
wherever the divisor element is `0` the result is exactly the native `a / 0`
of the element type. -/
theorem divide_native_no_guard {α : Type} [Div α] [Zero α]
    (out in1 in2 : Buffer α)
    (len i : ℕ) (hi : i < len) :
    eltwiseDivide out in1 in2 len i = in1 i / in2 i ∧
    (in2 i = 0 → eltwiseDivide out in1 in2 len i = in1 i / 0) := by
  refine ⟨?_, ?_⟩
  · simp [eltwiseDivide, binaryOp, hi]
  · intro h
    simp [eltwiseDivide, binaryOp, hi, h]

/-- Witness for C4: native division evaluated at index 0 of the concrete
scenario, whose divisor element is `0`. -/
theorem divide_native_no_guard_witness :
    eltwiseDivide qZeros qIn1 qIn2 4 0 = qIn1 0 / qIn2 0 ∧
    (qIn2 0 = 0 → eltwiseDivide qZeros qIn1 qIn2 4 0 = qIn1 0 / 0) :=
  divide_native_no_guard qZeros qIn1 qIn2 4 0 (by decide)

/-- Claim C5: for every cataloged operation, a call with `len = 0` is a legal
no-op: every element of the output buffer is left unchanged. -/
theorem zero_length_noop {α : Type} [Add α] [Sub α] [Mul α] [Div α] [Zero α]
    [DecidableEq α] (out inp in1 in2 : Buffer α) (s : α) (i : ℕ) :
    scalarAdd out inp s 0 i = out i ∧
    scalarMultiply out inp s 0 i = out i ∧
    eltwiseAdd out in1 in2 0 i = out i ∧
    eltwiseSub out in1 in2 0 i = out i ∧
    eltwiseMultiply out in1 in2 0 i = out i ∧
    eltwiseDivide out in1 in2 0 i = out i ∧
    eltwiseDivideCheckZero out in1 in2 0 i = out i := by
  refine ⟨?_, ?_, ?_, ?_, ?_, ?_, ?_⟩ <;>
    simp [scalarAdd, scalarMultiply, eltwiseAdd, eltwiseSub, eltwiseMultiply,
      eltwiseDivide, eltwiseDivideCheckZero, unaryOp, binaryOp]

/-- Claim C6: with the output buffer aliasing both inputs,
`eltwiseMultiply(a, a, a, len)` yields the square of the original element at
every index of `[0, len)`, since each index's reads precede its own write. -/
theorem multiply_self_alias_squares {α : Type} [Mul α] (a : Buffer α)
    (len i : ℕ) (hi : i < len) :
    eltwiseMultiply a a a len i = a i * a i := by
  simp [eltwiseMultiply, binaryOp, hi]

/-- Witness for C6: the self-aliased multiply squaring index 3 of the
concrete rational buffer `[1, 2, 3, 4]`. -/
theorem multiply_self_alias_squares_witness :
    eltwiseMultiply qIn1 qIn1 qIn1 4 3 = qIn1 3 * qIn1 3 :=
  multiply_self_alias_squares qIn1 4 3 (by decide)

/-- Claim C7: re-running `eltwiseAdd` with unchanged inputs `a`, `b` and
length `len` produces the same output buffer contents as the first run: the
operation is a deterministic, stateless pass. -/
theorem add_rerun_same {α : Type} [Add α] (out a b : Buffer α) (len : ℕ) :
    eltwiseAdd (eltwiseAdd out a b len) a b len = eltwiseAdd out a b len := by
  funext i
  by_cases hi : i < len <;> simp [eltwiseAdd, binaryOp, hi]

/-- Claim C8: for every cataloged operation the result at index `i` depends
only on the input element(s) at index `i` and the captured scalar: two runs
whose inputs agree at `i` produce equal outputs at `i`, regardless of the
other elements, the previous output contents, or the call lengths (as long as
both cover `i`). -/
theorem index_local_determinism {α : Type} [Add α] [Sub α] [Mul α] [Div α]
    [Zero α] [DecidableEq α]
    (out out' inp inp' in1 in1' in2 in2' : Buffer α) (s : α) (len len' i : ℕ)
    (hi : i < len) (hi' : i < len')
    (hin : inp i = inp' i) (h1 : in1 i = in1' i) (h2 : in2 i = in2' i) :
    scalarAdd out inp s len i = scalarAdd out' inp' s len' i ∧
    scalarMultiply out inp s len i = scalarMultiply out' inp' s len' i ∧
    eltwiseAdd out in1 in2 len i = eltwiseAdd out' in1' in2' len' i ∧
    eltwiseSub out in1 in2 len i = eltwiseSub out' in1' in2' len' i ∧
    eltwiseMultiply out in1 in2 len i = eltwiseMultiply out' in1' in2' len' i ∧
    eltwiseDivide out in1 in2 len i = eltwiseDivide out' in1' in2' len' i ∧
    eltwiseDivideCheckZero out in1 in2 len i =
      eltwiseDivideCheckZero out' in1' in2' len' i := by
  refine ⟨?_, ?_, ?_, ?_, ?_, ?_, ?_⟩ <;>
    simp [scalarAdd, scalarMultiply, eltwiseAdd, eltwiseSub, eltwiseMultiply,
      eltwiseDivide, eltwiseDivideCheckZero, unaryOp, binaryOp, hi, hi',
      hin, h1, h2]

/-- Witness for C8: two runs with different output buffers and different
lengths whose inputs agree at index 1 produce equal results there. -/
theorem index_local_determinism_witness :
    scalarAdd qZeros qIn1 5 4 1 = scalarAdd qIn2 qIn1 5 2 1 ∧
    scalarMultiply qZeros qIn1 5 4 1 = scalarMultiply qIn2 qIn1 5 2 1 ∧
    eltwiseAdd qZeros qIn1 qIn2 4 1 = eltwiseAdd qIn2 qIn1 qIn2 2 1 ∧
    eltwiseSub qZeros qIn1 qIn2 4 1 = eltwiseSub qIn2 qIn1 qIn2 2 1 ∧
    eltwiseMultiply qZeros qIn1 qIn2 4 1 =
      eltwiseMultiply qIn2 qIn1 qIn2 2 1 ∧
    eltwiseDivide qZeros qIn1 qIn2 4 1 = eltwiseDivide qIn2 qIn1 qIn2 2 1 ∧
    eltwiseDivideCheckZero qZeros qIn1 qIn2 4 1 =
      eltwiseDivideCheckZero qIn2 qIn1 qIn2 2 1 :=
  index_local_determinism qZeros qIn2 qIn1 qIn1 qIn1 qIn1 qIn2 qIn2 5 4 2 1
    (by decide) (by decide) rfl rfl rfl

/-- Claim C9: `eltwiseAdd` and `eltwiseMultiply` are commutative in their two
input buffers: swapping `in1` and `in2` produces an identical output buffer,
because `a + b` and `a * b` are symmetric in their arguments. -/
theorem add_multiply_commutative {α : Type} [CommRing α]
    (out in1 in2 : Buffer α) (len : ℕ) :
    eltwiseAdd out in1 in2 len = eltwiseAdd out in2 in1 len ∧
    eltwiseMultiply out in1 in2 len = eltwiseMultiply out in2 in1 len := by
  constructor <;> funext i <;>
    by_cases hi : i < len <;>
      simp [eltwiseAdd, eltwiseMultiply, binaryOp, hi, add_comm, mul_comm]

/-- Claim C10: `scalarAdd` with the additive identity `0` and
`scalarMultiply` with the multiplicative identity `1` act as the identity
transform on every index of `[0, len)`. -/
theorem scalar_identity {α : Type} [AddZeroClass α] [MulOneClass α]
    (out inp : Buffer α) (len i : ℕ) (hi : i < len) :
    scalarAdd out inp 0 len i = inp i ∧
    scalarMultiply out inp 1 len i = inp i := by
  constructor <;> simp [scalarAdd, scalarMultiply, unaryOp, hi]

/-- Witness for C10: the identity scalars acting on index 2 of the concrete
rational buffer `[1, 2, 3, 4]`. -/
theorem scalar_identity_witness :
    scalarAdd qZeros qIn1 0 4 2 = qIn1 2 ∧
    scalarMultiply qZeros qIn1 1 4 2 = qIn1 2 :=
  scalar_identity qZeros qIn1 4 2 (by decide)

end LinAlg

end MLCommon
